import Mathlib

/-
Verification of the aiochclient client library: a shallow embedding of the
type codec (src/aiochclient/types.py), the row materializer
(src/aiochclient/records.py) and the query-dispatch prologue
(src/aiochclient/client.py).

Wire data and Python strings are modelled as `List Char`.  Every character
the protocol logic inspects (backslash, quote, brackets, tab, comma, digits)
is single-byte ASCII, so the byte-string / text-string distinction of the
Python source does not affect any modelled behavior; `bytes.decode()` /
`str.encode()` round trips are identities in this model.

Recursive procedures of the source that are not structurally recursive in
Lean are given an explicit fuel argument (always called `fuel`), with the
public wrapper supplying fuel that provably exceeds the recursion depth of
the source procedure; this keeps every definition kernel-computable.
-/

set_option maxRecDepth 10000

/-- Shorthand: the character list underlying a string literal. -/
def lc (s : String) : List Char := s.data

/-- Python exception kinds raised by the modelled code paths.
`chClientError` is aiochclient.exceptions.ChClientError; the others are the
built-in IndexError / ValueError / TypeError / KeyError. -/
inductive PyErr where
  | chClientError (msg : String)
  | indexError
  | valueError
  | typeError
  | keyError
  deriving DecidableEq, Repr

/-! ## Escape codec (types.py, BaseType.ESC_CHR_MAPPING / BaseType.decode) -/

/-- ESC_CHR_MAPPING of BaseType with its default: the replacement text for
the character following a backslash (`.get(b[0:1], b[0:1])`). -/
def escMap (c : Char) : List Char :=
  match c with
  | 'b' => ['\x08']
  | 'N' => ['\\', 'N']
  | 'f' => ['\x0c']
  | 'r' => ['\r']
  | 'n' => ['\n']
  | 't' => ['\t']
  | '0' => [' ']
  | '\'' => ['\'']
  | '\\' => ['\\']
  | c => [c]

/-- `val.find(b"\\")` of the source: index of the first backslash
(`none` models the -1 result). -/
def findBS : List Char → Option Nat
  | [] => none
  | c :: rest => if c = '\\' then some 0 else (findBS rest).map (· + 1)

/-- The `while b:` loop of BaseType.decode.  `d` always ends with the
backslash that opened the pending escape; the loop consumes at least one
character of `b` per iteration, so fuel `b.length` suffices. -/
def decodeLoopF : Nat → List Char → List Char → List Char
  | 0, d, b => d ++ b
  | fuel + 1, d, b =>
    match b with
    | [] => d
    | c :: b1 =>
      let d1 := d.dropLast ++ escMap c
      match findBS b1 with
      | none => d1 ++ b1
      | some n => decodeLoopF fuel (d1 ++ b1.take (n + 1)) (b1.drop (n + 1))

/-- BaseType.decode: unescape backslash sequences; the no-backslash fast
path returns the input unchanged. -/
def decodeEsc (val : List Char) : List Char :=
  match findBS val with
  | none => val
  | some n => decodeLoopF val.length (val.take (n + 1)) (val.drop (n + 1))

/-- Specification-shaped unescaper: one left-to-right pass.  Proved equal to
`decodeEsc` (the faithful translation of the index-juggling source loop)
in `decodeEsc_eq_decodeSimple`; used only as a proof device. -/
def decodeSimple : List Char → List Char
  | [] => []
  | ['\\'] => ['\\']
  | '\\' :: c :: rest => escMap c ++ decodeSimple rest
  | c :: rest => c :: decodeSimple rest

theorem decodeSimple_cons_ne (c : Char) (rest : List Char) (hc : c ≠ '\\') :
    decodeSimple (c :: rest) = c :: decodeSimple rest := by
  cases rest with
  | nil => simp [decodeSimple, hc]
  | cons d ds =>
    rw [decodeSimple.eq_def]
    split <;> simp_all

theorem decodeSimple_bsfree (l : List Char) (h : ∀ c ∈ l, c ≠ '\\') :
    decodeSimple l = l := by
  induction l with
  | nil => rfl
  | cons c rest ih =>
    rw [decodeSimple_cons_ne c rest (h c (by simp))]
    rw [ih (fun d hd => h d (by simp [hd]))]

theorem findBS_none_iff (l : List Char) :
    findBS l = none ↔ ∀ c ∈ l, c ≠ '\\' := by
  induction l with
  | nil => simp [findBS]
  | cons c rest ih =>
    constructor
    · intro h d hd
      by_cases hc : c = '\\'
      · subst hc; simp [findBS] at h
      · simp only [findBS, if_neg hc] at h
        cases hfind : findBS rest with
        | none =>
          rcases List.mem_cons.mp hd with h1 | h2
          · exact h1 ▸ hc
          · exact (ih.mp hfind) d h2
        | some m => rw [hfind] at h; simp at h
    · intro h
      have hc : c ≠ '\\' := h c (by simp)
      simp only [findBS, if_neg hc]
      rw [ih.mpr (fun d hd => h d (by simp [hd]))]
      rfl

theorem findBS_some_split (l : List Char) (n : Nat) (h : findBS l = some n) :
    ∃ p q, l = p ++ '\\' :: q ∧ p.length = n ∧ ∀ c ∈ p, c ≠ '\\' := by
  induction l generalizing n with
  | nil => simp [findBS] at h
  | cons c rest ih =>
    by_cases hc : c = '\\'
    · subst hc
      simp [findBS] at h
      exact ⟨[], rest, by simp, by simp; omega, by simp⟩
    · simp only [findBS, if_neg hc] at h
      cases hrest : findBS rest with
      | none => rw [hrest] at h; simp at h
      | some m =>
        rw [hrest] at h
        simp at h
        obtain ⟨p, q, hl, hlen, hfree⟩ := ih m hrest
        refine ⟨c :: p, q, by simp [hl], by simp [hlen, ← h], ?_⟩
        intro d hd
        rcases List.mem_cons.mp hd with h1 | h2
        · exact h1 ▸ hc
        · exact hfree d h2

/-- `decodeSimple` on a suffix that starts just after a backslash. -/
def dsTail : List Char → List Char
  | [] => ['\\']
  | c :: rest => escMap c ++ decodeSimple rest

theorem decodeSimple_bs (q : List Char) :
    decodeSimple ('\\' :: q) = dsTail q := by
  cases q with
  | nil => rfl
  | cons c rest => rfl

theorem decodeSimple_append_free (p r : List Char) (hp : ∀ c ∈ p, c ≠ '\\') :
    decodeSimple (p ++ r) = p ++ decodeSimple r := by
  induction p with
  | nil => rfl
  | cons c rest ih =>
    have hc : c ≠ '\\' := hp c (by simp)
    rw [List.cons_append, decodeSimple_cons_ne c (rest ++ r) hc,
      ih (fun d hd => hp d (by simp [hd]))]
    simp

theorem decodeLoopF_eq (fuel : Nat) :
    ∀ b d, b.length ≤ fuel →
      decodeLoopF fuel (d ++ ['\\']) b = d ++ dsTail b := by
  induction fuel with
  | zero =>
    intro b d hb
    have : b = [] := List.length_eq_zero.mp (Nat.le_zero.mp hb)
    subst this
    simp [decodeLoopF, dsTail]
  | succ fuel ih =>
    intro b d hb
    cases b with
    | nil => simp [decodeLoopF, dsTail]
    | cons c b1 =>
      have hdrop : (d ++ ['\\']).dropLast = d := by simp
      cases hfind : findBS b1 with
      | none =>
        have hfree := (findBS_none_iff b1).mp hfind
        simp only [decodeLoopF, hfind, hdrop, dsTail]
        rw [decodeSimple_bsfree b1 hfree]
        simp
      | some n =>
        obtain ⟨p, q, hb1, hlen, hfree⟩ := findBS_some_split b1 n hfind
        have e1 : p ++ '\\' :: q = (p ++ ['\\']) ++ q := by simp
        have e2 : (p ++ ['\\']).length = n + 1 := by simp [hlen]
        have htake : b1.take (n + 1) = p ++ ['\\'] := by
          rw [hb1, e1, ← e2, List.take_left]
        have hdrop2 : b1.drop (n + 1) = q := by
          rw [hb1, e1, ← e2, List.drop_left]
        have hq : q.length ≤ fuel := by
          have hlb : b1.length = p.length + 1 + q.length := by
            rw [hb1]; simp only [List.length_append, List.length_cons]; omega
          have := hb
          simp only [List.length_cons] at this
          omega
        have hIH := ih q ((d ++ escMap c) ++ p) hq
        have hout : dsTail (c :: b1) = escMap c ++ (p ++ dsTail q) := by
          show escMap c ++ decodeSimple b1 = _
          rw [hb1, decodeSimple_append_free p ('\\' :: q) hfree, decodeSimple_bs]
        simp only [decodeLoopF, hfind, hdrop, htake, hdrop2, hout,
          ← List.append_assoc]
        exact hIH

/-- The faithful decoder agrees with the one-pass unescaper on every input. -/
theorem decodeEsc_eq_decodeSimple (l : List Char) :
    decodeEsc l = decodeSimple l := by
  cases hfind : findBS l with
  | none =>
    have hfree := (findBS_none_iff l).mp hfind
    rw [decodeEsc, hfind, decodeSimple_bsfree l hfree]
  | some n =>
    obtain ⟨p, q, hl, hlen, hfree⟩ := findBS_some_split l n hfind
    have e1 : p ++ '\\' :: q = (p ++ ['\\']) ++ q := by simp
    have e2 : (p ++ ['\\']).length = n + 1 := by simp [hlen]
    have htake : l.take (n + 1) = p ++ ['\\'] := by
      rw [hl, e1, ← e2, List.take_left]
    have hdrop : l.drop (n + 1) = q := by
      rw [hl, e1, ← e2, List.drop_left]
    have hq : q.length ≤ l.length := by
      rw [hl]; simp only [List.length_append, List.length_cons]; omega
    simp only [decodeEsc, hfind]
    rw [htake, hdrop, decodeLoopF_eq l.length q p hq]
    rw [hl, decodeSimple_append_free p ('\\' :: q) hfree, decodeSimple_bs]

/-! ## Sequence tokenizer (types.py, BaseType.seq_parser) -/

/-- The loop state of the tokenizer generator: the current element buffer,
the elements already yielded, and the four scanner flags. -/
structure SPState where
  cur : List Char
  acc : List (List Char)
  inStr : Bool
  inArr : Bool
  inTup : Bool
  esc : Bool
  deriving DecidableEq, Repr

/-- One iteration of the `for sym in raw` loop.  The first branch models the
`continue` after a top-level comma (the escape flag is left untouched and
the symbol is not appended); the flag updates mirror the if/elif chain, and
the escape flag is recomputed from the already-updated string flag, exactly
as the source mutates `in_str` before testing it. -/
def spStep (st : SPState) (sym : Char) : SPState :=
  if !(st.inStr || st.inArr || st.inTup) && sym == ',' then
    { st with acc := st.acc ++ [st.cur], cur := [] }
  else
    let fl :=
      if !(st.inStr || st.inArr || st.inTup) then
        if sym == '\'' then (!st.inStr, st.inArr, st.inTup)
        else if sym == '[' then (st.inStr, true, st.inTup)
        else if sym == '(' then (st.inStr, st.inArr, true)
        else (st.inStr, st.inArr, st.inTup)
      else if st.inStr && sym == '\'' then
        (if !st.esc then !st.inStr else st.inStr, st.inArr, st.inTup)
      else if st.inArr && sym == ']' then (st.inStr, false, st.inTup)
      else if st.inTup && sym == ')' then (st.inStr, st.inArr, false)
      else (st.inStr, st.inArr, st.inTup)
    let esc2 := if fl.1 && sym == '\\' then !st.esc else false
    { cur := st.cur ++ [sym], acc := st.acc,
      inStr := fl.1, inArr := fl.2.1, inTup := fl.2.2, esc := esc2 }

def spInit : SPState := ⟨[], [], false, false, false, false⟩

/-- BaseType.seq_parser: the list of elements the generator yields.  An
empty input returns before yielding anything; otherwise the final buffer is
yielded after the loop. -/
def seqParser (raw : List Char) : List (List Char) :=
  match raw with
  | [] => []
  | _ =>
    let st := raw.foldl spStep spInit
    st.acc ++ [st.cur]

/-- The characters that can change the scanner flags from the all-clear
state: top-level comma, quote, open bracket, open paren. -/
def isSpecialCh (c : Char) : Bool :=
  c == ',' || c == '\'' || c == '[' || c == '('

def finalOut (st : SPState) : List (List Char) := st.acc ++ [st.cur]

theorem seqParser_ne_nil (raw : List Char) (h : raw ≠ []) :
    seqParser raw = finalOut (raw.foldl spStep spInit) := by
  cases raw with
  | nil => exact absurd rfl h
  | cons c t => rfl

theorem spStep_flat (cur : List Char) (acc : List (List Char)) (c : Char)
    (h : isSpecialCh c = false) :
    spStep ⟨cur, acc, false, false, false, false⟩ c
      = ⟨cur ++ [c], acc, false, false, false, false⟩ := by
  simp only [isSpecialCh, Bool.or_eq_false_iff] at h
  obtain ⟨⟨⟨h1, h2⟩, h3⟩, h4⟩ := h
  simp [spStep, h1, h2, h3, h4]

theorem spStep_comma (cur : List Char) (acc : List (List Char)) :
    spStep ⟨cur, acc, false, false, false, false⟩ ','
      = ⟨[], acc ++ [cur], false, false, false, false⟩ := by
  simp [spStep]

theorem foldl_flat (l : List Char) :
    l.all (fun c => !isSpecialCh c) = true →
    ∀ cur acc, List.foldl spStep ⟨cur, acc, false, false, false, false⟩ l
      = ⟨cur ++ l, acc, false, false, false, false⟩ := by
  induction l with
  | nil => intro _ cur acc; simp
  | cons c t ih =>
    intro h cur acc
    simp only [List.all_cons, Bool.and_eq_true, Bool.not_eq_true'] at h
    rw [List.foldl_cons, spStep_flat cur acc c h.1]
    rw [ih (by simpa using h.2) (cur ++ [c]) acc]
    simp

/-- `",".join` of the source, split into head and tail for induction. -/
def joinTail : List (List Char) → List Char
  | [] => []
  | x :: xs => ',' :: x ++ joinTail xs

def joinComma : List (List Char) → List Char
  | [] => []
  | x :: xs => x ++ joinTail xs

theorem foldl_joinTail (xs : List (List Char))
    (h : ∀ x ∈ xs, x.all (fun c => !isSpecialCh c) = true) :
    ∀ cur acc,
      finalOut (List.foldl spStep ⟨cur, acc, false, false, false, false⟩
        (joinTail xs)) = acc ++ [cur] ++ xs := by
  induction xs with
  | nil => intro cur acc; simp [joinTail, finalOut]
  | cons x rest ih =>
    intro cur acc
    show finalOut (List.foldl spStep _ (',' :: x ++ joinTail rest)) = _
    rw [List.cons_append, List.foldl_cons, spStep_comma cur acc,
      List.foldl_append, foldl_flat x (h x (by simp)) [] (acc ++ [cur])]
    rw [List.nil_append]
    rw [ih (fun y hy => h y (by simp [hy])) x (acc ++ [cur])]
    simp

/-- The tokenizer inverts `",".join` on flat elements: joining any
nonempty list of elements that contain no comma, quote, open bracket or
open paren, then tokenizing, returns exactly those elements. -/
theorem seqParser_joinComma (xs : List (List Char)) (h1 : xs ≠ [])
    (h2 : ∀ x ∈ xs, x.all (fun c => !isSpecialCh c) = true)
    (h3 : joinComma xs ≠ []) :
    seqParser (joinComma xs) = xs := by
  obtain ⟨x, rest, rfl⟩ := List.exists_cons_of_ne_nil h1
  rw [seqParser_ne_nil _ h3]
  show finalOut (List.foldl spStep spInit (x ++ joinTail rest)) = _
  rw [List.foldl_append]
  show finalOut (List.foldl spStep
    (List.foldl spStep ⟨[], [], false, false, false, false⟩ x)
    (joinTail rest)) = _
  rw [foldl_flat x (h2 x (by simp)) [] []]
  rw [List.nil_append]
  rw [foldl_joinTail rest (fun y hy => h2 y (by simp [hy])) x []]
  simp

theorem joinComma_cons_ne_nil (x : List Char) (rest : List (List Char))
    (hx : x ≠ []) : joinComma (x :: rest) ≠ [] := by
  cases x with
  | nil => exact absurd rfl hx
  | cons c cs => simp [joinComma]

/-! ## Python string helpers used by types.py -/

/-- `str.split(sep)` with a predicate for the separator: always yields at
least one (possibly empty) piece, like Python. -/
def pySplitP (p : Char → Bool) : List Char → List (List Char)
  | [] => [[]]
  | c :: rest =>
    if p c then [] :: pySplitP p rest
    else
      match pySplitP p rest with
      | [] => [[c]]
      | h :: t => (c :: h) :: t

/-- `str.split(sep)` for a single-character separator. -/
def pySplit (sep : Char) (l : List Char) : List (List Char) :=
  pySplitP (· == sep) l

/-- `str.split()` (no argument): split on whitespace, dropping empty
pieces. -/
def pySplitWs (l : List Char) : List (List Char) :=
  (pySplitP (·.isWhitespace) l).filter (fun x => !x.isEmpty)

/-- `str.strip(<set>)`: remove characters satisfying `p` from both ends. -/
def pyStripSet (s : List Char) (p : Char → Bool) : List Char :=
  ((s.dropWhile p).reverse.dropWhile p).reverse

/-- `str.strip()` with no argument: strip whitespace. -/
def strTrim (l : List Char) : List Char := pyStripSet l (·.isWhitespace)

/-- `str.strip("'")`. -/
def pyStripQuotes (l : List Char) : List Char := pyStripSet l (· == '\'')

/-- `str.strip("()")`. -/
def pyStripParens (l : List Char) : List Char :=
  pyStripSet l (fun c => c == '(' || c == ')')

/-- `str[1:-1]`. -/
def pyStrip1 (l : List Char) : List Char := (l.drop 1).dropLast

/-- `str.index`/`str.find` for one character (first occurrence). -/
def firstIdx (t : Char) : List Char → Option Nat
  | [] => none
  | c :: rest => if c = t then some 0 else (firstIdx t rest).map (· + 1)

/-- `str.rindex` for one character (last occurrence). -/
def lastIdx (t : Char) (l : List Char) : Option Nat :=
  (firstIdx t l.reverse).map (fun k => l.length - 1 - k)

/-- `str.rpartition(t)[2]`: the text after the last occurrence of `t`, or
the whole string when `t` does not occur. -/
def afterLast (t : Char) (l : List Char) : List Char :=
  (l.reverse.takeWhile (fun c => !(c == t))).reverse

/-- `name.split("(")[0]`. -/
def takeBeforeParen (l : List Char) : List Char :=
  l.takeWhile (fun c => !(c == '('))

/-- `remove_single_quotes` of types.py.  Python indexes `string[0]` and
`string[-1]`, so the empty string raises IndexError. -/
def removeSingleQuotes (l : List Char) : Except PyErr (List Char) :=
  match l with
  | [] => .error .indexError
  | _ =>
    if l.head? == some '\'' && l.getLast? == some '\'' then
      .ok (pyStrip1 l)
    else .ok l

/-! ## Type registry (types.py, CH_TYPES_MAPPING / what_py_type) -/

/-- A value in CH_TYPES_MAPPING: the class the type-family key maps to. -/
inductive CHFamily where
  | boolF | intF | floatF | strF | dateF | dateTimeF | dateTime64F
  | tupleF | mapF | arrayF | nullableF | nothingF | uuidF
  | lowCardinalityF | decimalF | ipv4F | ipv6F | nestedF
  deriving DecidableEq, Repr

/-- CH_TYPES_MAPPING: the fixed wire-type-family lookup table
(`none` models a KeyError). -/
def chTypesMapping (family : List Char) : Option CHFamily :=
  if family = lc "Bool" then some .boolF
  else if family = lc "UInt8" then some .intF
  else if family = lc "UInt16" then some .intF
  else if family = lc "UInt32" then some .intF
  else if family = lc "UInt64" then some .intF
  else if family = lc "UInt128" then some .intF
  else if family = lc "UInt256" then some .intF
  else if family = lc "Int8" then some .intF
  else if family = lc "Int16" then some .intF
  else if family = lc "Int32" then some .intF
  else if family = lc "Int64" then some .intF
  else if family = lc "Int128" then some .intF
  else if family = lc "Int256" then some .intF
  else if family = lc "Float32" then some .floatF
  else if family = lc "Float64" then some .floatF
  else if family = lc "String" then some .strF
  else if family = lc "FixedString" then some .strF
  else if family = lc "Enum8" then some .strF
  else if family = lc "Enum16" then some .strF
  else if family = lc "Date" then some .dateF
  else if family = lc "DateTime" then some .dateTimeF
  else if family = lc "DateTime64" then some .dateTime64F
  else if family = lc "Tuple" then some .tupleF
  else if family = lc "Map" then some .mapF
  else if family = lc "Array" then some .arrayF
  else if family = lc "Nullable" then some .nullableF
  else if family = lc "Nothing" then some .nothingF
  else if family = lc "UUID" then some .uuidF
  else if family = lc "LowCardinality" then some .lowCardinalityF
  else if family = lc "Decimal" then some .decimalF
  else if family = lc "Decimal32" then some .decimalF
  else if family = lc "Decimal64" then some .decimalF
  else if family = lc "Decimal128" then some .decimalF
  else if family = lc "IPv4" then some .ipv4F
  else if family = lc "IPv6" then some .ipv6F
  else if family = lc "Nested" then some .nestedF
  else none

/-- The constructed type descriptor: one variant per concrete BaseType
subclass.  Only StrType consults the `container` flag, so only the string
variant stores it. -/
inductive Descriptor where
  | intD | floatD | boolD | dateD | dateTimeD | dateTime64D
  | uuidD | ipv4D | ipv6D | decimalD | nothingD
  | strD (container : Bool)
  | tupleD (types : List Descriptor)
  | mapD (keyType valueType : Descriptor)
  | arrayD (type : Descriptor)
  | nestedD (types : List Descriptor)
  | nullableD (type : Descriptor)
  | lowCardinalityD (type : Descriptor)

/-- `re.findall(r',(.*)\)', name)[0]` of the aggregate-function special
case: the text between the first comma that is followed by some `)` and
the last `)` of the string; the `[0]` on an empty findall result raises
IndexError. -/
def aggExtract (l : List Char) : Except PyErr (List Char) :=
  match lastIdx ')' l with
  | none => .error .indexError
  | some j =>
    match firstIdx ',' (l.take j) with
    | none => .error .indexError
    | some i => .ok ((l.take j).drop (i + 1))

/-- `re.findall(r'^Head\((.*)\)$', name)[0]`: `head` includes the opening
paren, e.g. `Tuple(`.  A failed match raises IndexError on `[0]`. -/
def reInner (head : List Char) (l : List Char) : Except PyErr (List Char) :=
  if head.isPrefixOf l && l.getLast? == some ')' then
    .ok ((l.drop head.length).dropLast)
  else .error .indexError

/-- The message of the ChClientError raised on a KeyError from
CH_TYPES_MAPPING. -/
def unrecognizedMsg (name : List Char) : String :=
  "Unrecognized type name: \x27" ++ String.mk name ++ "\x27"

/-- what_py_type of types.py, including every constructor body it can
dispatch to (TupleType/MapType/ArrayType/NestedType/NullableType/
LowCardinalityType `__init__`).  `fuel` bounds the recursion depth; every
recursive call receives a strictly shorter name, so the wrapper
`whatPyType` passes `name.length + 1`, which can never run out. -/
def whatPyTypeF : Nat → List Char → Bool → Except PyErr Descriptor
  | 0, _, _ => .error (.chClientError "recursion fuel exhausted")
  | fuel + 1, name, container =>
    let stripped := strTrim name
    let famE : Except PyErr (List Char) :=
      if (lc "SimpleAggregateFunction").isPrefixOf stripped
          || (lc "AggregateFunction").isPrefixOf stripped then
        (aggExtract stripped).map strTrim
      else .ok (takeBeforeParen stripped)
    match famE with
    | .error e => .error e
    | .ok chType =>
      match chTypesMapping chType with
      | none => .error (.chClientError (unrecognizedMsg stripped))
      | some fam =>
        match fam with
        | .boolF => .ok .boolD
        | .intF => .ok .intD
        | .floatF => .ok .floatD
        | .strF => .ok (.strD container)
        | .dateF => .ok .dateD
        | .dateTimeF => .ok .dateTimeD
        | .dateTime64F => .ok .dateTime64D
        | .uuidF => .ok .uuidD
        | .ipv4F => .ok .ipv4D
        | .ipv6F => .ok .ipv6D
        | .decimalF => .ok .decimalD
        | .nothingF => .ok .nothingD
        | .tupleF => do
            let inner ← reInner (lc "Tuple(") stripped
            let types ← (pySplit ',' inner).mapM
              (fun tp => whatPyTypeF fuel (afterLast ' ' tp) true)
            .ok (.tupleD types)
        | .mapF => do
            let inner ← reInner (lc "Map(") stripped
            match firstIdx ',' inner with
            | none => .error .valueError
            | some ci => do
              let k ← whatPyTypeF fuel (inner.take ci) true
              let v ← whatPyTypeF fuel (inner.drop (ci + 1)) true
              .ok (.mapD k v)
        | .arrayF => do
            let inner ← reInner (lc "Array(") stripped
            let t ← whatPyTypeF fuel inner true
            .ok (.arrayD t)
        | .nestedF => do
            let inner ← reInner (lc "Nested(") stripped
            let types ← (pySplit ',' inner).mapM (fun fld =>
              match (pySplitWs fld).get? 1 with
              | none => .error .indexError
              | some x => whatPyTypeF fuel x true)
            .ok (.nestedD types)
        | .nullableF => do
            let inner ← reInner (lc "Nullable(") stripped
            let t ← whatPyTypeF fuel inner container
            .ok (.nullableD t)
        | .lowCardinalityF => do
            let inner ← reInner (lc "LowCardinality(") stripped
            let t ← whatPyTypeF fuel inner container
            .ok (.lowCardinalityD t)

/-- what_py_type with its recursion fuel discharged. -/
def whatPyType (name : List Char) (container : Bool) : Except PyErr Descriptor :=
  whatPyTypeF (name.length + 1) name container

/-! ## Integer formatting and parsing (`b"%d" % v` and `int(...)`) -/

def digitChar (n : Nat) : Char :=
  match n with
  | 0 => '0' | 1 => '1' | 2 => '2' | 3 => '3' | 4 => '4'
  | 5 => '5' | 6 => '6' | 7 => '7' | 8 => '8' | _ => '9'

/-- Decimal digits of `n`, most significant first; fuel-driven version of
the usual div-10 recursion (`n + 1` fuel always suffices). -/
def natToCharsF : Nat → Nat → List Char
  | 0, _ => []
  | fuel + 1, n =>
    if n < 10 then [digitChar n]
    else natToCharsF fuel (n / 10) ++ [digitChar (n % 10)]

def natChars (n : Nat) : List Char := natToCharsF (n + 1) n

/-- IntType.unconvert: `b"%d" % value`. -/
def intUnconvert (v : Int) : List Char :=
  if v < 0 then '-' :: natChars v.natAbs else natChars v.toNat

def parseNat (l : List Char) : Nat :=
  l.foldl (fun a c => a * 10 + (c.toNat - 48)) 0

def parseNatE (ds : List Char) : Except PyErr Nat :=
  if !ds.isEmpty && ds.all Char.isDigit then .ok (parseNat ds)
  else .error .valueError

/-- The Python `int(...)` constructor on the decimal notations IntType can
receive: an optional minus sign followed by digits (a malformed literal
raises ValueError). -/
def parseIntPy : List Char → Except PyErr Int
  | '-' :: ds => (parseNatE ds).map (fun (n : Nat) => -(n : Int))
  | ds => (parseNatE ds).map (fun (n : Nat) => (n : Int))

theorem digitChar_toNat (d : Nat) (h : d < 10) : (digitChar d).toNat - 48 = d := by
  interval_cases d <;> rfl

theorem digitChar_isDigit (d : Nat) (h : d < 10) : (digitChar d).isDigit = true := by
  interval_cases d <;> rfl

theorem natToCharsF_spec (fuel : Nat) : ∀ n, n < fuel →
    parseNat (natToCharsF fuel n) = n
    ∧ (natToCharsF fuel n).all Char.isDigit = true
    ∧ natToCharsF fuel n ≠ [] := by
  induction fuel with
  | zero => intro n h; omega
  | succ fuel ih =>
    intro n h
    by_cases h10 : n < 10
    · simp only [natToCharsF, if_pos h10]
      refine ⟨?_, by simp [digitChar_isDigit n h10], by simp⟩
      simp [parseNat, digitChar_toNat n h10]
    · have hn : 0 < n := by omega
      have hm : n / 10 < fuel := by
        have := Nat.div_lt_self hn (by omega : 1 < 10)
        omega
      obtain ⟨ih1, ih2, ih3⟩ := ih (n / 10) hm
      simp only [natToCharsF, if_neg h10]
      refine ⟨?_, ?_, by simp⟩
      · show parseNat (natToCharsF fuel (n / 10) ++ [digitChar (n % 10)]) = n
        unfold parseNat
        rw [List.foldl_append]
        show parseNat (natToCharsF fuel (n / 10)) * 10
            + ((digitChar (n % 10)).toNat - 48) = n
        rw [ih1, digitChar_toNat (n % 10) (Nat.mod_lt n (by omega))]
        omega
      · rw [List.all_append]
        simp [ih2, digitChar_isDigit (n % 10) (Nat.mod_lt n (by omega))]

theorem parseNat_natChars (n : Nat) : parseNat (natChars n) = n :=
  (natToCharsF_spec (n + 1) n (by omega)).1

theorem natChars_digits (n : Nat) : (natChars n).all Char.isDigit = true :=
  (natToCharsF_spec (n + 1) n (by omega)).2.1

theorem natChars_ne_nil (n : Nat) : natChars n ≠ [] :=
  (natToCharsF_spec (n + 1) n (by omega)).2.2

theorem parseIntPy_digits (l : List Char) (h1 : l ≠ [])
    (h2 : l.all Char.isDigit = true) :
    parseIntPy l = .ok ((parseNat l : Int)) := by
  cases l with
  | nil => exact absurd rfl h1
  | cons c rest =>
    have hc : c ≠ '-' := by
      intro heq
      subst heq
      simp only [List.all_cons, Bool.and_eq_true] at h2
      exact absurd h2.1 (by decide)
    rw [parseIntPy.eq_def]
    split
    · simp_all
    · simp [parseNatE, h2, Except.map]

theorem parseIntPy_intUnconvert (v : Int) : parseIntPy (intUnconvert v) = .ok v := by
  by_cases hv : v < 0
  · simp only [intUnconvert, if_pos hv]
    show (parseNatE (natChars v.natAbs)).map (fun (n : Nat) => -(n : Int)) = .ok v
    simp only [parseNatE, natChars_digits v.natAbs, Bool.and_true]
    rw [if_pos (by simpa using natChars_ne_nil v.natAbs)]
    simp only [Except.map, parseNat_natChars]
    congr 1
    rw [Int.ofNat_natAbs_of_nonpos (le_of_lt hv), neg_neg]
  · simp only [intUnconvert, if_neg hv]
    rw [parseIntPy_digits (natChars v.toNat) (natChars_ne_nil v.toNat)
      (natChars_digits v.toNat), parseNat_natChars]
    congr 1
    exact Int.toNat_of_nonneg (by omega)

/-! ## Date parsing (the external ciso8601 / strptime collaborators) -/

/-- Gregorian leap year, as Python's datetime uses. -/
def isLeap (y : Nat) : Bool :=
  (y % 4 == 0 && y % 100 != 0) || y % 400 == 0

def daysInMonth (y m : Nat) : Nat :=
  if m == 2 then (if isLeap y then 29 else 28)
  else if m == 4 || m == 6 || m == 9 || m == 11 then 30
  else 31

/-- Modelled external parser: `strptime(s, "%Y-%m-%d")` (the fallback when
ciso8601 is absent), with Python datetime's validity constraints
(MINYEAR 1, month 1..12, day 1..days-in-month).  `none` models the
ValueError both parsers raise on invalid input such as `0000-00-00`
(month 0 / year 0 are invalid for both). -/
def parseDateCore (l : List Char) : Option (Nat × Nat × Nat) :=
  match l with
  | [y1, y2, y3, y4, '-', m1, m2, '-', d1, d2] =>
    if [y1, y2, y3, y4, m1, m2, d1, d2].all Char.isDigit then
      let y := parseNat [y1, y2, y3, y4]
      let mo := parseNat [m1, m2]
      let da := parseNat [d1, d2]
      if 1 ≤ y && 1 ≤ mo && mo ≤ 12 && 1 ≤ da && da ≤ daysInMonth y mo then
        some (y, mo, da)
      else none
    else none
  | _ => none

/-- Modelled external parser: the `%H:%M:%S` part of strptime. -/
def parseTimeCore (l : List Char) : Option (Nat × Nat × Nat) :=
  match l with
  | [h1, h2, ':', mi1, mi2, ':', s1, s2] =>
    if [h1, h2, mi1, mi2, s1, s2].all Char.isDigit then
      let h := parseNat [h1, h2]
      let mi := parseNat [mi1, mi2]
      let s := parseNat [s1, s2]
      if h ≤ 23 && mi ≤ 59 && s ≤ 59 then some (h, mi, s) else none
    else none
  | _ => none

/-- Modelled external parser: `strptime(s, "%Y-%m-%d %H:%M:%S")`. -/
def parseDateTimeCore (l : List Char) :
    Option ((Nat × Nat × Nat) × (Nat × Nat × Nat)) :=
  match l.drop 10 with
  | ' ' :: t => do
    let d ← parseDateCore (l.take 10)
    let tm ← parseTimeCore t
    some (d, tm)
  | _ => none

/-- Modelled external parser: `strptime(s, "%Y-%m-%d %H:%M:%S.%f")`
(`%f` accepts 1 to 6 digits). -/
def parseDateTime64Core (l : List Char) :
    Option (((Nat × Nat × Nat) × (Nat × Nat × Nat)) × List Char) :=
  match l.drop 19 with
  | '.' :: frac =>
    if !frac.isEmpty && frac.length ≤ 6 && frac.all Char.isDigit then
      (parseDateTimeCore (l.take 19)).map (fun dt => (dt, frac))
    else none
  | _ => none

/-! ## Decoded native values -/

/-- The native Python values the converters produce.  Values whose parsing
is done by external libraries that no claim inspects (float, Decimal, UUID,
IP addresses) are carried as their parsed-from text. -/
inductive Value where
  | int (i : Int)
  | floatLit (s : List Char)
  | str (s : List Char)
  | boolV (b : Bool)
  | null
  | date (y m d : Nat)
  | dateTime (y mo d h mi s : Nat)
  | dateTime64 (y mo d h mi s : Nat) (frac : List Char)
  | uuidLit (s : List Char)
  | ipv4Lit (s : List Char)
  | ipv6Lit (s : List Char)
  | decimalLit (s : List Char)
  | tupleV (vs : List Value)
  | listV (vs : List Value)
  | mapV (entries : List (Value × Value))
  | bytes (bs : List Char)

/-- DateType.p_type: strip quotes, parse, and turn the `0000-00-00`
sentinel's ValueError into None. -/
def datePType (s0 : List Char) : Except PyErr Value :=
  let s := pyStripQuotes s0
  match parseDateCore s with
  | some (y, m, d) => .ok (.date y m d)
  | none => if s = lc "0000-00-00" then .ok .null else .error .valueError

/-- DateTimeType.p_type with its `0000-00-00 00:00:00` sentinel. -/
def dateTimePType (s0 : List Char) : Except PyErr Value :=
  let s := pyStripQuotes s0
  match parseDateTimeCore s with
  | some ((y, mo, d), (h, mi, sec)) => .ok (.dateTime y mo d h mi sec)
  | none =>
    if s = lc "0000-00-00 00:00:00" then .ok .null else .error .valueError

/-- DateTime64Type.p_type with its `0000-00-00 00:00:00.000` sentinel. -/
def dateTime64PType (s0 : List Char) : Except PyErr Value :=
  let s := pyStripQuotes s0
  match parseDateTime64Core s with
  | some (((y, mo, d), (h, mi, sec)), frac) =>
    .ok (.dateTime64 y mo d h mi sec frac)
  | none =>
    if s = lc "0000-00-00 00:00:00.000" then .ok .null else .error .valueError

/-- `tuple(tp.p_type(val) for tp, val in zip(types, vals))`: zip silently
truncates to the shorter list; the first failing element aborts. -/
def zipMapME (f : Descriptor → List Char → Except PyErr Value) :
    List Descriptor → List (List Char) → Except PyErr (List Value)
  | _, [] => .ok []
  | [], _ :: _ => .ok []
  | t :: ts2, s :: ss => do
    let v ← f t s
    let vs ← zipMapME f ts2 ss
    .ok (v :: vs)

/-- p_type of every Descriptor variant (the per-class `p_type` methods of
types.py).  Recursion descends strictly into child descriptors, so fuel
`1 + sizeOf d` (supplied by `descConvert`) always suffices. -/
def pTypeF : Nat → Descriptor → List Char → Except PyErr Value
  | 0, _, _ => .error (.chClientError "recursion fuel exhausted")
  | fuel + 1, d, l =>
    match d with
    | .intD => (parseIntPy l).map .int
    | .floatD => .ok (.floatLit l)
    | .boolD =>
      if l = lc "true" then .ok (.boolV true)
      else if l = lc "false" then .ok (.boolV false)
      else .error .valueError
    | .strD container =>
      let s := decodeEsc l
      if container then (removeSingleQuotes s).map .str else .ok (.str s)
    | .dateD => datePType l
    | .dateTimeD => dateTimePType l
    | .dateTime64D => dateTime64PType l
    | .uuidD => .ok (.uuidLit (pyStripQuotes l))
    | .ipv4D => .ok (.ipv4Lit (pyStripQuotes l))
    | .ipv6D => .ok (.ipv6Lit (pyStripQuotes l))
    | .decimalD => .ok (.decimalLit l)
    | .nothingD => .ok .null
    | .tupleD types =>
      (zipMapME (pTypeF fuel) types (seqParser (pyStripParens l))).map .tupleV
    | .mapD k v =>
      let inner := pyStrip1 l
      match firstIdx ':' inner with
      | none => .error .valueError
      | some ci => do
        let kv ← pTypeF fuel k (inner.take ci)
        let vv ← pTypeF fuel v (inner.drop (ci + 1))
        .ok (.mapV [(kv, vv)])
    | .arrayD t =>
      ((seqParser (pyStrip1 l)).mapM (pTypeF fuel t)).map .listV
    | .nestedD types =>
      ((seqParser (pyStrip1 l)).mapM (fun el =>
        (zipMapME (pTypeF fuel) types (seqParser (pyStripParens el))).map
          .tupleV)).map .listV
    | .nullableD t =>
      if l = lc "\\N" || l = lc "NULL" then .ok .null else pTypeF fuel t l
    | .lowCardinalityD t => pTypeF fuel t l

mutual

/-- Structural size of a descriptor: an upper bound on the recursion depth
of the p_type methods, used only to discharge `pTypeF`'s fuel. -/
def descSize : Descriptor → Nat
  | .tupleD ts => 1 + descSizeList ts
  | .mapD k v => 1 + descSize k + descSize v
  | .arrayD t => 1 + descSize t
  | .nestedD ts => 1 + descSizeList ts
  | .nullableD t => 1 + descSize t
  | .lowCardinalityD t => 1 + descSize t
  | _ => 1

def descSizeList : List Descriptor → Nat
  | [] => 0
  | d :: ds => descSize d + descSizeList ds

end

/-- p_type with its recursion fuel discharged: `1 + descSize d` strictly
exceeds the depth of every chain of child descriptors. -/
def pType (d : Descriptor) (l : List Char) : Except PyErr Value :=
  pTypeF (1 + descSize d) d l

/-- The per-descriptor `convert` method: String, Nullable and
LowCardinality inherit BaseType.convert and therefore escape-decode the
raw field before calling p_type; Nothing always returns None; every other
variant overrides convert and hands the (plainly utf-8-decoded) field text
to p_type directly. -/
def descConvert (d : Descriptor) (l : List Char) : Except PyErr Value :=
  match d with
  | .nothingD => .ok .null
  | .strD c => pType (.strD c) (decodeEsc l)
  | .nullableD t => pType (.nullableD t) (decodeEsc l)
  | .lowCardinalityD t => pType (.lowCardinalityD t) (decodeEsc l)
  | _ => pType d l

/-! ## Native-to-wire encoders (types.py `unconvert` / py2ch / rows2ch) -/

/-- StrType.unconvert's escaping:
`value.replace("\\", "\\\\").replace("'", "\\'")`.  The sequential
replaces act on disjoint characters (the quotes' new backslashes are not
re-doubled), so they equal this per-character map. -/
def escChar (c : Char) : List Char :=
  if c = '\\' then ['\\', '\\']
  else if c = '\'' then ['\\', '\''] else [c]

def escapeStr : List Char → List Char
  | [] => []
  | c :: rest => escChar c ++ escapeStr rest

/-- StrType.unconvert: escape, then wrap in single quotes. -/
def strUnconvert (s : List Char) : List Char :=
  '\'' :: escapeStr s ++ ['\'']

/-- BoolType.unconvert: the integer representation kept for compatibility
with servers that store booleans as UInt8. -/
def boolUnconvert (b : Bool) : List Char := if b then ['1'] else ['0']

/-- 2-digit zero-padded decimal, as strftime emits. -/
def pad2 (n : Nat) : List Char := if n < 10 then '0' :: natChars n else natChars n

/-- 4-digit zero-padded decimal year. -/
def pad4 (n : Nat) : List Char :=
  if n < 10 then '0' :: '0' :: '0' :: natChars n
  else if n < 100 then '0' :: '0' :: natChars n
  else if n < 1000 then '0' :: natChars n
  else natChars n

/-- 6-digit zero-padded microseconds (`%f`). -/
def pad6 (n : Nat) : List Char :=
  let d := natChars n
  List.replicate (6 - d.length) '0' ++ d

def dateISO (y m d : Nat) : List Char :=
  pad4 y ++ '-' :: pad2 m ++ '-' :: pad2 d

def dateTimeISO (y mo d h mi s : Nat) : List Char :=
  dateISO y mo d ++ ' ' :: pad2 h ++ ':' :: pad2 mi ++ ':' :: pad2 s

/-- The native Python values py2ch dispatches on (`PY_TYPES_MAPPING` keys).
float / Decimal / UUID / IP values are carried as the text their `repr` /
`str` produces, which is all their unconvert functions use. -/
inductive PyVal where
  | int (i : Int)
  | float (reprTxt : List Char)
  | str (s : List Char)
  | boolV (b : Bool)
  | date (y m d : Nat)
  | dateTime (y mo d h mi s micro : Nat)
  | noneV
  | tupleV (vs : List PyVal)
  | listV (vs : List PyVal)
  | dictV (entries : List (PyVal × PyVal))
  | uuidV (s : List Char)
  | decimalV (s : List Char)
  | ipv4V (s : List Char)
  | ipv6V (s : List Char)

mutual

/-- Fuel bound for py2ch recursion. -/
def pyValSize : PyVal → Nat
  | .tupleV vs => 1 + pyValSizeList vs
  | .listV vs => 1 + pyValSizeList vs
  | .dictV es => 1 + pyValSizePairs es
  | _ => 1

def pyValSizeList : List PyVal → Nat
  | [] => 0
  | v :: vs => pyValSize v + pyValSizeList vs

def pyValSizePairs : List (PyVal × PyVal) → Nat
  | [] => 0
  | kv :: es => pyValSize kv.1 + pyValSize kv.2 + pyValSizePairs es

end

/-- py2ch of types.py: dispatch on the value's runtime type to the
matching unconvert (DateType/DateTimeType/UUIDType/IPv4Type/IPv6Type
produce `b"%a" % str(value)`, i.e. the quoted text;
TupleType/ArrayType/MapType recurse through py2ch). -/
def py2chF : Nat → PyVal → Except PyErr (List Char)
  | 0, _ => .error (.chClientError "recursion fuel exhausted")
  | fuel + 1, v =>
    match v with
    | .int i => .ok (intUnconvert i)
    | .float r => .ok r
    | .str s => .ok (strUnconvert s)
    | .boolV b => .ok (boolUnconvert b)
    | .noneV => .ok (lc "NULL")
    | .date y m d => .ok ('\'' :: dateISO y m d ++ ['\''])
    | .dateTime y mo d h mi s micro =>
      if micro != 0 then
        .ok ('\'' :: (dateTimeISO y mo d h mi s ++ '.' :: pad6 micro) ++ ['\''])
      else .ok ('\'' :: dateTimeISO y mo d h mi s ++ ['\''])
    | .uuidV s => .ok ('\'' :: s ++ ['\''])
    | .ipv4V s => .ok ('\'' :: s ++ ['\''])
    | .ipv6V s => .ok ('\'' :: s ++ ['\''])
    | .decimalV s => .ok s
    | .tupleV vs =>
      (vs.mapM (py2chF fuel)).map (fun ps => '(' :: joinComma ps ++ [')'])
    | .listV vs =>
      (vs.mapM (py2chF fuel)).map (fun ps => '[' :: joinComma ps ++ [']'])
    | .dictV es =>
      (es.mapM (fun (kv : PyVal × PyVal) => do
        let k ← py2chF fuel kv.1
        let v2 ← py2chF fuel kv.2
        .ok (k ++ ':' :: v2))).map
          (fun ps => '\x7b' :: joinComma ps ++ ['\x7d'])

def py2ch (v : PyVal) : Except PyErr (List Char) :=
  py2chF (1 + pyValSize v) v

/-- TupleType.unconvert applied to one insert row (as rows2ch does): wrap
the per-element py2ch encodings in parens.  Iterating a non-sequence
value raises TypeError. -/
def tupleRowUnconvert (row : PyVal) : Except PyErr (List Char) :=
  match row with
  | .tupleV vs => (vs.mapM py2ch).map (fun ps => '(' :: joinComma ps ++ [')'])
  | .listV vs => (vs.mapM py2ch).map (fun ps => '(' :: joinComma ps ++ [')'])
  | _ => .error .typeError

/-- rows2ch of types.py. -/
def rows2ch (rows : List PyVal) : Except PyErr (List Char) :=
  (rows.mapM tupleRowUnconvert).map joinComma

/-! ## Row materializer (records.py) -/

/-- One element of RecordsFabric.converters: a constructed type's convert,
or empty_convertor when `convert=False`. -/
inductive Conv where
  | desc (d : Descriptor)
  | emptyConv

def applyConv : Conv → List Char → Except PyErr Value
  | .desc d, l => descConvert d l
  | .emptyConv, l => .ok (.bytes l)

structure Fabric where
  names : List (List Char)
  converters : List Conv

/-- RecordsFabric.__init__: split both header lines on tab (after
stripping the line terminator) and build one converter per type field.
No comparison of the two field counts is performed. -/
def recordsFabricInit (tps names : List Char) (convert : Bool) :
    Except PyErr Fabric :=
  let ns := pySplit '\t' (strTrim names)
  if convert then
    ((pySplit '\t' (strTrim tps)).mapM
      (fun tp => (whatPyType tp false).map Conv.desc)).map
        (fun cs => ⟨ns, cs⟩)
  else
    .ok ⟨ns, (pySplit '\t' (strTrim tps)).map (fun _ => .emptyConv)⟩

/-- Record._decode's row materialization:
`zip(converters, row.split(b"\t"))` truncates silently to the shorter of
the two lists. -/
def recordDecodeRow (convs : List Conv) (row : List Char) :
    Except PyErr (List Value) :=
  ((convs.zip (pySplit '\t' row)).mapM (fun p => applyConv p.1 p.2))

/-- The payload states a Record can be in: raw wire bytes or the decoded
value tuple. -/
inductive RowData where
  | raw (bs : List Char)
  | vals (vs : List Value)

structure RecordObj where
  row : RowData
  decoded : Bool
  names : List (List Char)
  converters : List Conv

/-- Record.__init__: an empty row is marked decoded immediately and gets
empty names/converters; its raw bytes stay in place. -/
def recordInit (row : List Char) (names : List (List Char))
    (convs : List Conv) : RecordObj :=
  if row.isEmpty then ⟨.raw row, true, [], []⟩
  else ⟨.raw row, false, names, convs⟩

/-- `len(record)` = `len(self._names)`. -/
def recordLen (r : RecordObj) : Nat := r.names.length

/-- `iter(record)` iterates the name map's keys. -/
def recordKeys (r : RecordObj) : List (List Char) := r.names

/-- Record._decode: a no-op when already decoded. -/
def recordDecodeStep (r : RecordObj) : Except PyErr RecordObj :=
  if r.decoded then .ok r
  else
    match r.row with
    | .raw bs =>
      (recordDecodeRow r.converters bs).map
        (fun vs => { r with row := .vals vs, decoded := true })
    | .vals _ => .ok { r with decoded := true }

inductive SliceRes where
  | bytesRes (bs : List Char)
  | valsRes (vs : List Value)

/-- `record[:]`: Record.__getitem__ with a full slice first runs _decode,
then slices `self._row` (bytes slicing for a never-decoded empty row,
tuple slicing otherwise). -/
def recordGetSliceAll (r : RecordObj) : Except PyErr SliceRes :=
  (recordDecodeStep r).map
    (fun r2 => match r2.row with
      | .raw bs => .bytesRes bs
      | .vals vs => .valsRes vs)

/-! ## Query dispatcher prologue (client.py, ChClient._execute) -/

/-- The body handed to the HTTP collaborator: raw bytes from rows2ch or
the query text, or the JSONEachRow dump of the arguments (json.dumps is an
external collaborator, carried symbolically). -/
inductive Payload where
  | raw (bs : List Char)
  | jsonDump (args : List PyVal)

/-- The single HTTP call _execute issues, if any: a streaming POST for
fetch-classified queries or a fire-and-forget POST otherwise.
`queryParam` is `params["query"]` (set only on the insert-with-arguments
path, where the body carries the data instead of the query). -/
inductive HttpAction where
  | postReturnLines (queryParam : Option (List Char)) (body : Payload)
  | postNoReturn (queryParam : Option (List Char)) (body : Payload)

/-- ChClient._execute from the classification on (lines 144-190 of
client.py): the classifier outputs (needFetch, isJson, statement type) are
inputs here, since sqlparse is an external collaborator; parameter
interpolation (`query.format`) has already been applied to `query`.
Returns the one HTTP action the method performs, or the error it raises
before performing any. -/
def executeCore (needFetch isJson0 : Bool) (stype : String)
    (jsonArg : Bool) (query : List Char) (args : List PyVal) :
    Except PyErr HttpAction :=
  let p1 := if !isJson0 && jsonArg then
      (query ++ lc " FORMAT JSONEachRow", true)
    else (query, isJson0)
  let query1 := p1.1
  let isJson := p1.2
  let query2 := if !isJson && needFetch then
      query1 ++ lc " FORMAT TSVWithNamesAndTypes"
    else query1
  if !args.isEmpty then
    if stype ≠ "INSERT" then
      .error (.chClientError
        "It is possible to pass arguments only for INSERT queries")
    else do
      let body ← if isJson then .ok (Payload.jsonDump args)
        else (rows2ch args).map .raw
      .ok (if needFetch then .postReturnLines (some query2) body
        else .postNoReturn (some query2) body)
  else
    .ok (if needFetch then .postReturnLines none (.raw query2)
      else .postNoReturn none (.raw query2))

/-! ## Escape round-trip lemmas -/

theorem ds_escape_append (s t : List Char) :
    decodeSimple (escapeStr s ++ t) = s ++ decodeSimple t := by
  induction s with
  | nil => rfl
  | cons c rest ih =>
    show decodeSimple ((escChar c ++ escapeStr rest) ++ t) = _
    rw [List.append_assoc]
    by_cases hbs : c = '\\'
    · subst hbs
      show decodeSimple ('\\' :: '\\' :: (escapeStr rest ++ t)) = _
      show escMap '\\' ++ decodeSimple (escapeStr rest ++ t) = _
      rw [ih]
      rfl
    · by_cases hq : c = '\''
      · subst hq
        show decodeSimple ('\\' :: '\'' :: (escapeStr rest ++ t)) = _
        show escMap '\'' ++ decodeSimple (escapeStr rest ++ t) = _
        rw [ih]
        rfl
      · show decodeSimple (escChar c ++ (escapeStr rest ++ t)) = _
        rw [show escChar c = [c] from by simp [escChar, hbs, hq]]
        rw [List.singleton_append, decodeSimple_cons_ne c _ hbs, ih]
        rfl

theorem strUnconvert_decode (s : List Char) :
    decodeEsc (strUnconvert s) = '\'' :: (s ++ ['\'']) := by
  rw [decodeEsc_eq_decodeSimple]
  show decodeSimple ('\'' :: (escapeStr s ++ ['\''])) = _
  rw [decodeSimple_cons_ne '\'' (escapeStr s ++ ['\'']) (by decide),
    ds_escape_append]
  rfl

theorem removeSingleQuotes_wrap (s : List Char) :
    removeSingleQuotes ('\'' :: (s ++ ['\''])) = .ok s := by
  have h2 : ('\'' :: (s ++ ['\''])).getLast? = some '\'' := by
    rw [show '\'' :: (s ++ ['\'']) = ('\'' :: s) ++ ['\''] from by simp,
      List.getLast?_concat]
  rw [removeSingleQuotes.eq_def]
  split
  · simp_all
  · rw [if_pos (by simp [h2])]
    show Except.ok (pyStrip1 ('\'' :: (s ++ ['\'']))) = _
    rw [show pyStrip1 ('\'' :: (s ++ ['\''])) = (s ++ ['\'']).dropLast from rfl]
    rw [List.dropLast_concat]

theorem pType_str (cc : Bool) (l : List Char) :
    pType (.strD cc) l = pTypeF 2 (.strD cc) l := by
  rw [pType, show descSize (.strD cc) = 1 from by simp [descSize]]

/-- Composite-context string decode of the escaped quoted encoding:
one unescape pass plus quote stripping recovers any string exactly. -/
theorem strPType_roundtrip (s : List Char) :
    pType (.strD true) (strUnconvert s) = .ok (.str s) := by
  rw [pType_str]
  show (removeSingleQuotes (decodeEsc (strUnconvert s))).map Value.str
      = .ok (.str s)
  rw [strUnconvert_decode, removeSingleQuotes_wrap]
  rfl

theorem mem_quoted (s : List Char) (hs : ∀ c ∈ s, c ≠ '\\')
    (c : Char) (hc : c ∈ '\'' :: (s ++ ['\''])) : c ≠ '\\' := by
  rcases List.mem_cons.mp hc with h1 | h1
  · subst h1; decide
  · rcases List.mem_append.mp h1 with h3 | h3
    · exact hs c h3
    · simp at h3; subst h3; decide

theorem decodeEsc_bsfree (l : List Char) (h : ∀ c ∈ l, c ≠ '\\') :
    decodeEsc l = l := by
  rw [decodeEsc, (findBS_none_iff l).mpr h]

/-- StrType.convert (which unescapes twice: once in BaseType.convert and
once more inside StrType.p_type) still round-trips encodings of
backslash-free strings. -/
theorem strConvert_roundtrip (s : List Char) (h : ∀ c ∈ s, c ≠ '\\') :
    descConvert (.strD true) (strUnconvert s) = .ok (.str s) := by
  show pType (.strD true) (decodeEsc (strUnconvert s)) = _
  rw [strUnconvert_decode, pType_str]
  show (removeSingleQuotes
      (decodeEsc ('\'' :: (s ++ ['\''])))).map Value.str = .ok (.str s)
  rw [decodeEsc_bsfree _ (mem_quoted s h), removeSingleQuotes_wrap]
  rfl

/-! ## Integer and array round-trip support -/

theorem digit_not_special (c : Char) (h : c.isDigit = true) :
    isSpecialCh c = false := by
  have h1 : c ≠ ',' := fun he => absurd (he ▸ h) (by decide)
  have h2 : c ≠ '\'' := fun he => absurd (he ▸ h) (by decide)
  have h3 : c ≠ '[' := fun he => absurd (he ▸ h) (by decide)
  have h4 : c ≠ '(' := fun he => absurd (he ▸ h) (by decide)
  simp [isSpecialCh, h1, h2, h3, h4]

theorem all_digit_flat (l : List Char) (h : l.all Char.isDigit = true) :
    l.all (fun c => !isSpecialCh c) = true := by
  induction l with
  | nil => rfl
  | cons c rest ih =>
    simp only [List.all_cons, Bool.and_eq_true] at h ⊢
    exact ⟨by simp [digit_not_special c h.1], ih h.2⟩

theorem intUnconvert_flat (v : Int) :
    (intUnconvert v).all (fun c => !isSpecialCh c) = true := by
  rw [intUnconvert]
  by_cases hv : v < 0
  · rw [if_pos hv]
    simp only [List.all_cons, Bool.and_eq_true]
    exact ⟨by decide, all_digit_flat _ (natChars_digits v.natAbs)⟩
  · rw [if_neg hv]
    exact all_digit_flat _ (natChars_digits v.toNat)

theorem intUnconvert_ne_nil (v : Int) : intUnconvert v ≠ [] := by
  rw [intUnconvert]
  by_cases hv : v < 0
  · rw [if_pos hv]; simp
  · rw [if_neg hv]; exact natChars_ne_nil v.toNat

theorem pyValSize_listV_pos (vs : List PyVal) :
    1 + pyValSize (.listV vs) = pyValSizeList vs + 2 := by
  rw [show pyValSize (.listV vs) = 1 + pyValSizeList vs from by
    simp [pyValSize]]
  omega

theorem mapM_py2chF_int (fuel : Nat) (xs : List Int) :
    (xs.map PyVal.int).mapM (py2chF (fuel + 1))
      = .ok (xs.map intUnconvert) := by
  induction xs with
  | nil => rfl
  | cons x rest ih =>
    rw [List.map_cons, List.mapM_cons]
    rw [show py2chF (fuel + 1) (.int x) = .ok (intUnconvert x) from rfl]
    rw [List.map_cons, ih]
    rfl

/-- ArrayType.unconvert on a list of Python ints (via py2ch dispatch). -/
theorem py2ch_listInt (xs : List Int) :
    py2ch (.listV (xs.map PyVal.int))
      = .ok ('[' :: (joinComma (xs.map intUnconvert) ++ [']'])) := by
  rw [py2ch, pyValSize_listV_pos]
  show ((xs.map PyVal.int).mapM
      (py2chF (pyValSizeList (xs.map PyVal.int) + 1))).map
        (fun ps => '[' :: joinComma ps ++ [']']) = _
  rw [mapM_py2chF_int]
  rfl

theorem mapM_pTypeF_int (xs : List Int) :
    (xs.map intUnconvert).mapM (pTypeF 2 .intD)
      = .ok (xs.map Value.int) := by
  induction xs with
  | nil => rfl
  | cons x rest ih =>
    rw [List.map_cons, List.mapM_cons]
    have h1 : pTypeF 2 .intD (intUnconvert x) = .ok (.int x) := by
      show (parseIntPy (intUnconvert x)).map Value.int = _
      rw [parseIntPy_intUnconvert]
      rfl
    rw [h1, ih]
    rfl

theorem joinComma_map_intUnconvert_ne_nil (x : Int) (rest : List Int) :
    joinComma ((x :: rest).map intUnconvert) ≠ [] := by
  rw [List.map_cons]
  exact joinComma_cons_ne_nil _ _ (intUnconvert_ne_nil x)

/-- Array(Int) decode of the encoded wire form recovers the list exactly,
including the empty array. -/
theorem arrayInt_roundtrip (xs : List Int) :
    descConvert (.arrayD .intD)
        ('[' :: (joinComma (xs.map intUnconvert) ++ [']']))
      = .ok (.listV (xs.map Value.int)) := by
  show pType (.arrayD .intD) _ = _
  rw [pType, show descSize (.arrayD .intD) = 2 from by simp [descSize]]
  show ((seqParser (pyStrip1
      ('[' :: (joinComma (xs.map intUnconvert) ++ [']'])))).mapM
        (pTypeF 2 .intD)).map Value.listV = _
  rw [show pyStrip1 ('[' :: (joinComma (xs.map intUnconvert) ++ [']']))
      = joinComma (xs.map intUnconvert) from by
    show (joinComma (xs.map intUnconvert) ++ [']']).dropLast = _
    rw [List.dropLast_concat]]
  cases xs with
  | nil => rfl
  | cons x rest =>
    rw [seqParser_joinComma ((x :: rest).map intUnconvert) (by simp)
      (fun y hy => by
        obtain ⟨v, hv, rfl⟩ := List.mem_map.mp hy
        exact intUnconvert_flat v)
      (joinComma_map_intUnconvert_ne_nil x rest)]
    rw [mapM_pTypeF_int]
    rfl

/-! ## Map decode support -/

theorem firstIdx_append (t : Char) (q : List Char) :
    ∀ p, (∀ c ∈ p, c ≠ t) → firstIdx t (p ++ t :: q) = some p.length := by
  intro p
  induction p with
  | nil => intro _; simp [firstIdx]
  | cons c rest ih =>
    intro hp
    have hc : c ≠ t := hp c (by simp)
    show firstIdx t (c :: (rest ++ t :: q)) = _
    rw [firstIdx, if_neg hc, ih (fun d hd => hp d (by simp [hd]))]
    rfl

theorem pType_mapD_strC (k v : List Char) (hk : ∀ c ∈ k, c ≠ ':') :
    descConvert (.mapD (.strD true) (.strD true))
        ('\x7b' :: ((k ++ ':' :: v) ++ ['\x7d']))
      = (pType (.strD true) k).bind (fun kv =>
          (pType (.strD true) v).map (fun vv => .mapV [(kv, vv)])) := by
  show pType (.mapD (.strD true) (.strD true)) _ = _
  rw [pType, show descSize (.mapD (.strD true) (.strD true)) = 3 from by
    simp [descSize]]
  have hinner : pyStrip1 ('\x7b' :: ((k ++ ':' :: v) ++ ['\x7d']))
      = k ++ ':' :: v := by
    show ((k ++ ':' :: v) ++ ['\x7d']).dropLast = _
    rw [List.dropLast_concat]
  show (match firstIdx ':' (pyStrip1 ('\x7b' :: ((k ++ ':' :: v) ++ ['\x7d']))) with
    | none => Except.error PyErr.valueError
    | some ci => do
      let kv ← pTypeF 3 (.strD true)
        ((pyStrip1 ('\x7b' :: ((k ++ ':' :: v) ++ ['\x7d']))).take ci)
      let vv ← pTypeF 3 (.strD true)
        ((pyStrip1 ('\x7b' :: ((k ++ ':' :: v) ++ ['\x7d']))).drop (ci + 1))
      Except.ok (Value.mapV [(kv, vv)])) = _
  rw [hinner, firstIdx_append ':' v k hk]
  have htake : (k ++ ':' :: v).take k.length = k := by
    exact List.take_left k (':' :: v)
  have hdrop : (k ++ ':' :: v).drop (k.length + 1) = v := by
    rw [show k ++ ':' :: v = (k ++ [':']) ++ v from by simp,
      show k.length + 1 = (k ++ [':']).length from by simp,
      List.drop_left]
  show (do
    let kv ← pTypeF 3 (.strD true) ((k ++ ':' :: v).take k.length)
    let vv ← pTypeF 3 (.strD true) ((k ++ ':' :: v).drop (k.length + 1))
    Except.ok (Value.mapV [(kv, vv)])) = _
  rw [htake, hdrop]
  rw [show pTypeF 3 (.strD true) k = pType (.strD true) k from by
    rw [pType_str]; rfl]
  rw [show pTypeF 3 (.strD true) v = pType (.strD true) v from by
    rw [pType_str]; rfl]
  rfl

/-! ## Row-length support -/

theorem mapM_ok_length {α β : Type} (f : α → Except PyErr β) :
    ∀ (l : List α) (out : List β), l.mapM f = .ok out → out.length = l.length := by
  intro l
  induction l with
  | nil =>
    intro out h
    rw [List.mapM_nil] at h
    simp only [pure, Except.pure, Except.ok.injEq] at h
    subst h
    rfl
  | cons a rest ih =>
    intro out h
    rw [List.mapM_cons] at h
    cases hf : f a with
    | error e =>
      rw [hf] at h
      simp [Bind.bind, Except.bind] at h
    | ok b =>
      rw [hf] at h
      cases hr : rest.mapM f with
      | error e =>
        rw [hr] at h
        simp [Bind.bind, Except.bind] at h
      | ok bs =>
        rw [hr] at h
        simp only [Bind.bind, Except.bind, pure, Except.pure,
          Except.ok.injEq] at h
        subst h
        simp [ih bs hr]

theorem applyConv_int (l : List Char) :
    applyConv (.desc .intD) l = (parseIntPy l).map .int := by
  show descConvert .intD l = _
  show pType .intD l = _
  rw [pType, show descSize .intD = 1 from by simp [descSize]]
  rfl

/-! ## Claim theorems -/

/-- Claim C6 (confirmed): for every string containing tab, backslash,
quote or newline, unescape-decoding the escaped encoding with the
surrounding quotes removed (the composite-context p_type path) returns the
string exactly; decoding of backslash-free text is the identity; and an
escape sequence whose character is not in the mapping table passes the
character through literally instead of raising. -/
theorem C6_escape_roundtrip (s l : List Char)
    (_h1 : '\t' ∈ s ∨ '\\' ∈ s ∨ '\'' ∈ s ∨ '\n' ∈ s)
    (h2 : ∀ c ∈ l, c ≠ '\\') :
    pType (.strD true) (strUnconvert s) = .ok (.str s)
    ∧ decodeEsc l = l
    ∧ decodeEsc ['\\', 'q'] = ['q'] :=
  ⟨strPType_roundtrip s, decodeEsc_bsfree l h2, by rfl⟩

theorem C6_escape_roundtrip_witness :
    pType (.strD true) (strUnconvert (lc "a\tb\\c'd\ne"))
      = .ok (.str (lc "a\tb\\c'd\ne"))
    ∧ decodeEsc (lc "plain text") = lc "plain text"
    ∧ decodeEsc ['\\', 'q'] = ['q'] :=
  C6_escape_roundtrip (lc "a\tb\\c'd\ne") (lc "plain text")
    (by decide) (by decide)

/-- Claim C9 (confirmed): a Record built from empty wire bytes has length
0, iterates over no keys, and a full slice returns the empty byte
sequence, none of which raises. -/
theorem C9_empty_row (names : List (List Char)) (convs : List Conv) :
    recordLen (recordInit [] names convs) = 0
    ∧ recordKeys (recordInit [] names convs) = []
    ∧ recordGetSliceAll (recordInit [] names convs) = .ok (.bytesRes []) :=
  ⟨rfl, rfl, rfl⟩

/-- Claim C10 (confirmed): the all-zero sentinel wire values of Date,
DateTime and DateTime64 columns decode to None (the parser rejects them
and the except-branch maps them to None), so a non-Nullable date-typed
column can materialize as null. -/
theorem C10_zero_date_sentinels :
    descConvert .dateD (lc "0000-00-00") = .ok .null
    ∧ descConvert .dateTimeD (lc "0000-00-00 00:00:00") = .ok .null
    ∧ descConvert .dateTime64D (lc "0000-00-00 00:00:00.000") = .ok .null := by
  refine ⟨?_, ?_, ?_⟩
  · show pType .dateD _ = _
    rw [pType, show descSize .dateD = 1 from by simp [descSize]]
    rfl
  · show pType .dateTimeD _ = _
    rw [pType, show descSize .dateTimeD = 1 from by simp [descSize]]
    rfl
  · show pType .dateTime64D _ = _
    rw [pType, show descSize .dateTime64D = 1 from by simp [descSize]]
    rfl

/-- Claim C8 (confirmed): for every query whose classified statement kind
is not INSERT, passing positional arguments makes _execute raise the
argument-misuse ChClientError instead of performing any HTTP action. -/
theorem C8_args_non_insert (needFetch isJson jsonArg : Bool) (stype : String)
    (query : List Char) (args : List PyVal)
    (h1 : args ≠ []) (h2 : stype ≠ "INSERT") :
    executeCore needFetch isJson stype jsonArg query args
      = .error (.chClientError
          "It is possible to pass arguments only for INSERT queries") := by
  cases args with
  | nil => exact absurd rfl h1
  | cons a as => simp [executeCore, h2]

theorem C8_args_non_insert_witness :
    executeCore true false "SELECT" false (lc "SELECT 1") [.int 1]
      = .error (.chClientError
          "It is possible to pass arguments only for INSERT queries") :=
  C8_args_non_insert true false false "SELECT" (lc "SELECT 1") [.int 1]
    (List.cons_ne_nil _ _) (by decide)

/-- Claim C1 counterexample: Bool does not round-trip.  BoolType.unconvert
emits the integer wire form `1`, which BoolType.convert rejects with
ValueError (it accepts only `true`/`false`). -/
theorem C1_counterexample :
    descConvert .boolD (boolUnconvert true) = .error .valueError := by
  show pType .boolD _ = _
  rw [pType, show descSize .boolD = 1 from by simp [descSize]]
  rfl

/-- Claim C1 (amended): convert of unconvert is the identity for the
integer types at every width (all of Int, covering negatives, zero and
maximum-magnitude values), for composite-context strings containing no
backslash (including the empty string and strings with quotes, tabs and
newlines), and for arrays of integers including the empty array; Bool is
excluded (see the counterexample), and strings require the no-backslash
and composite-context restrictions because StrType.convert unescapes
twice and keeps the added quotes at top level. -/
theorem C1_roundtrip :
    (∀ v : Int, descConvert .intD (intUnconvert v) = .ok (.int v))
    ∧ (∀ s : List Char, (∀ c ∈ s, c ≠ '\\') →
        descConvert (.strD true) (strUnconvert s) = .ok (.str s))
    ∧ (∀ xs : List Int,
        (py2ch (.listV (xs.map PyVal.int))).bind
            (descConvert (.arrayD .intD))
          = .ok (.listV (xs.map Value.int))) := by
  refine ⟨?_, strConvert_roundtrip, ?_⟩
  · intro v
    show pType .intD _ = _
    rw [pType, show descSize .intD = 1 from by simp [descSize]]
    show (parseIntPy (intUnconvert v)).map Value.int = _
    rw [parseIntPy_intUnconvert]
    rfl
  · intro xs
    rw [py2ch_listInt]
    show descConvert (.arrayD .intD) _ = _
    exact arrayInt_roundtrip xs

theorem C1_roundtrip_witness :
    descConvert .intD (intUnconvert (-(2 ^ 127)))
      = .ok (.int (-(2 ^ 127)))
    ∧ descConvert (.strD true) (strUnconvert (lc "a'b\tc"))
      = .ok (.str (lc "a'b\tc"))
    ∧ (py2ch (.listV (([] : List Int).map PyVal.int))).bind
        (descConvert (.arrayD .intD))
      = .ok (.listV (([] : List Int).map Value.int)) :=
  ⟨C1_roundtrip.1 (-(2 ^ 127)),
   C1_roundtrip.2.1 (lc "a'b\tc") (by decide),
   C1_roundtrip.2.2 []⟩

/-- Claim C2 counterexample: resolving Tuple(UInt8,Map(String,String))
does not succeed; TupleType.__init__ splits the parameter list on every
comma, hands the fragment `Map(String` to MapType, whose regex match
fails, and the resulting IndexError escapes what_py_type uncaught. -/
theorem C2_counterexample :
    whatPyType (lc "Tuple(UInt8,Map(String,String))") false
      = .error .indexError := by rfl

/-- Claim C2 (amended): a Tuple whose parameter list contains no nested
comma resolves each parameter to the correct child descriptor and decodes
its wire value correctly: Tuple(UInt8,String) resolves to the
(int, container-string) descriptor pair and decodes `(4,'hello')` to the
native pair (4, "hello").  A parenthesized composite parameter containing
a comma makes construction raise an uncaught IndexError instead (see the
counterexample). -/
theorem C2_tuple_resolution :
    whatPyType (lc "Tuple(UInt8,String)") false
      = .ok (.tupleD [.intD, .strD true])
    ∧ descConvert (.tupleD [.intD, .strD true]) (lc "(4,'hello')")
      = .ok (.tupleV [.int 4, .str (lc "hello")]) := by
  constructor
  · rfl
  · show pType (.tupleD [.intD, .strD true]) _ = _
    rw [pType, show descSize (.tupleD [.intD, .strD true]) = 3 from by
      simp [descSize, descSizeList]]
    rfl

/-- Claim C3 counterexample: Map decoding does not return the n entries of
the literal.  A two-entry literal collapses into a single entry whose
value swallows the rest of the text, and the empty literal raises
ValueError (the unpack of `split(':', 1)` fails). -/
theorem C3_counterexample :
    descConvert (.mapD (.strD true) (.strD true))
        ('\x7b' :: (lc "a:b,c:d" ++ ['\x7d']))
      = .ok (.mapV [(.str (lc "a"), .str (lc "b,c:d"))])
    ∧ descConvert (.mapD (.strD true) (.strD true)) ['\x7b', '\x7d']
      = .error .valueError
    ∧ Value.mapV [(.str (lc "a"), .str (lc "b,c:d"))]
      ≠ Value.mapV [(.str (lc "a"), .str (lc "b")),
          (.str (lc "c"), .str (lc "d"))] := by
  refine ⟨?_, ?_, by simp⟩
  · show pType (.mapD (.strD true) (.strD true)) _ = _
    rw [pType, show descSize (.mapD (.strD true) (.strD true)) = 3 from by
      simp [descSize]]
    rfl
  · show pType (.mapD (.strD true) (.strD true)) _ = _
    rw [pType, show descSize (.mapD (.strD true) (.strD true)) = 3 from by
      simp [descSize]]
    rfl

/-- Claim C3 (amended): MapType.p_type handles exactly one entry: the
braces are stripped, the inner text is split at its first colon into one
key and one value (the value keeps all remaining text, commas and colons
included), and each side is decoded by its child descriptor; the
zero-entry literal raises ValueError.  Map(String,String) resolves to the
container-string pair. -/
theorem C3_map_single_entry (k v : List Char) (hk : ∀ c ∈ k, c ≠ ':') :
    whatPyType (lc "Map(String,String)") false
      = .ok (.mapD (.strD true) (.strD true))
    ∧ descConvert (.mapD (.strD true) (.strD true))
        ('\x7b' :: ((k ++ ':' :: v) ++ ['\x7d']))
      = (pType (.strD true) k).bind (fun kv =>
          (pType (.strD true) v).map (fun vv => .mapV [(kv, vv)]))
    ∧ descConvert (.mapD (.strD true) (.strD true))
        ('\x7b' :: (lc "'x':'y'" ++ ['\x7d']))
      = .ok (.mapV [(.str (lc "x"), .str (lc "y"))]) := by
  refine ⟨by rfl, pType_mapD_strC k v hk, ?_⟩
  show pType (.mapD (.strD true) (.strD true)) _ = _
  rw [pType, show descSize (.mapD (.strD true) (.strD true)) = 3 from by
    simp [descSize]]
  rfl

theorem C3_map_single_entry_witness :
    whatPyType (lc "Map(String,String)") false
      = .ok (.mapD (.strD true) (.strD true))
    ∧ descConvert (.mapD (.strD true) (.strD true))
        ('\x7b' :: ((lc "kk" ++ ':' :: lc "v:v,w") ++ ['\x7d']))
      = (pType (.strD true) (lc "kk")).bind (fun kv =>
          (pType (.strD true) (lc "v:v,w")).map
            (fun vv => .mapV [(kv, vv)]))
    ∧ descConvert (.mapD (.strD true) (.strD true))
        ('\x7b' :: (lc "'x':'y'" ++ ['\x7d']))
      = .ok (.mapV [(.str (lc "x"), .str (lc "y"))]) :=
  C3_map_single_entry (lc "kk") (lc "v:v,w") (by decide)

/-- Claim C4 counterexample: no protocol-mismatch check exists.  Building
a result set from a 3-name header and a 2-type header succeeds (no error
is raised before rows are read), and decoding a 3-field row against the 2
converters silently truncates to 2 values. -/
theorem C4_counterexample :
    recordsFabricInit (lc "UInt8\tUInt8") (lc "a\tb\tc") true
      = .ok ⟨[lc "a", lc "b", lc "c"], [.desc .intD, .desc .intD]⟩
    ∧ recordDecodeRow [.desc .intD, .desc .intD] (lc "1\t2\t3")
      = .ok [.int 1, .int 2] := by
  constructor
  · rfl
  · show (([(Conv.desc Descriptor.intD, lc "1"),
        (Conv.desc Descriptor.intD, lc "2")]).mapM
          (fun p => applyConv p.1 p.2)) = .ok [.int 1, .int 2]
    rw [List.mapM_cons, List.mapM_cons, List.mapM_nil]
    simp only [applyConv_int]
    rfl

/-- Claim C4 (amended): the header pair with differing field counts is
accepted without any error, and a decoded row always has
min(converter count, field count) values: Record._decode zips converters
with fields, silently dropping the surplus of either side; no
protocol-mismatch error is raised anywhere. -/
theorem C4_no_mismatch_check (convs : List Conv) (row : List Char)
    (out : List Value) (h : recordDecodeRow convs row = .ok out) :
    out.length = min convs.length (pySplit '\t' row).length
    ∧ recordsFabricInit (lc "UInt8\tUInt8") (lc "a\tb\tc") true
      = .ok ⟨[lc "a", lc "b", lc "c"], [.desc .intD, .desc .intD]⟩ := by
  constructor
  · have h' : (convs.zip (pySplit '\t' row)).mapM
        (fun p => applyConv p.1 p.2) = .ok out := h
    have hlen := mapM_ok_length (fun p => applyConv p.1 p.2)
      (convs.zip (pySplit '\t' row)) out h'
    rw [hlen, List.length_zip]
  · rfl

theorem C4_no_mismatch_check_witness :
    ([Value.bytes (lc "1"), Value.bytes (lc "2")] : List Value).length
        = min ([Conv.emptyConv, Conv.emptyConv, Conv.emptyConv] : List Conv).length
            (pySplit '\t' (lc "1\t2")).length
    ∧ recordsFabricInit (lc "UInt8\tUInt8") (lc "a\tb\tc") true
      = .ok ⟨[lc "a", lc "b", lc "c"], [.desc .intD, .desc .intD]⟩ :=
  C4_no_mismatch_check [.emptyConv, .emptyConv, .emptyConv] (lc "1\t2")
    [.bytes (lc "1"), .bytes (lc "2")] (by rfl)

/-- Claim C5 counterexample: a comma inside bracket nesting of depth two
does end an element, because the tokenizer tracks brackets with a boolean
rather than a depth counter: the inner `]` of `[[1]` clears the flag and
the next comma splits, yielding three elements instead of two. -/
theorem C5_counterexample :
    seqParser (lc "[[1],[2]],[[3]]")
      = [lc "[[1]", lc "[2]]", lc "[[3]]"]
    ∧ seqParser (lc "[[1],[2]],[[3]]")
      ≠ [lc "[[1],[2]]", lc "[[3]]"] :=
  ⟨by rfl, by decide⟩

/-- Claim C5 (amended): the tokenizer yields the top-level comma-separated
elements for flat content and one level of nesting: the empty string
yields zero elements, `a,b,c` yields three, `(1,2),(3,4)` yields two, a
comma inside a quoted string does not split, and joining any nonempty
list of elements free of comma/quote/open-bracket/open-paren and
re-tokenizing returns exactly those elements.  At nesting depth two or
more the boolean flags lose track and a comma can wrongly end an element
(see the counterexample). -/
theorem C5_tokenizer (xs : List (List Char)) (h1 : xs ≠ [])
    (h2 : ∀ x ∈ xs, x.all (fun c => !isSpecialCh c) = true)
    (h3 : joinComma xs ≠ []) :
    seqParser [] = []
    ∧ seqParser (lc "a,b,c") = [lc "a", lc "b", lc "c"]
    ∧ seqParser (lc "(1,2),(3,4)") = [lc "(1,2)", lc "(3,4)"]
    ∧ seqParser (lc "'a,b'") = [lc "'a,b'"]
    ∧ seqParser (joinComma xs) = xs :=
  ⟨rfl, by rfl, by rfl, by rfl, seqParser_joinComma xs h1 h2 h3⟩

theorem C5_tokenizer_witness :
    seqParser [] = []
    ∧ seqParser (lc "a,b,c") = [lc "a", lc "b", lc "c"]
    ∧ seqParser (lc "(1,2),(3,4)") = [lc "(1,2)", lc "(3,4)"]
    ∧ seqParser (lc "'a,b'") = [lc "'a,b'"]
    ∧ seqParser (joinComma [lc "x1", lc "y22"]) = [lc "x1", lc "y22"] :=
  C5_tokenizer [lc "x1", lc "y22"] (by decide) (by decide) (by decide)

/-- Claim C7 counterexample: resolving the unrecognized name
SimpleAggregateFunction raises an uncaught IndexError (the aggregate
special case's regex finds no match and `[0]` fails before the table
lookup), not the typed ChClientError. -/
theorem C7_counterexample :
    whatPyType (lc "SimpleAggregateFunction") false
      = .error .indexError := by rfl

/-- Claim C7 (amended): for every type name that does not start with the
aggregate-function keywords and whose family (the text before the first
paren, after stripping) is not in the fixed mapping table, resolution
raises the typed ChClientError carrying the offending name in its
message; in particular Bogus42 raises the unrecognized-type error
mentioning Bogus42.  Names starting with the aggregate keywords but
lacking a `,...)` segment instead escape with an untyped IndexError (see
the counterexample). -/
theorem C7_unknown_family (l : List Char)
    (h1 : (lc "SimpleAggregateFunction").isPrefixOf (strTrim l) = false)
    (h2 : (lc "AggregateFunction").isPrefixOf (strTrim l) = false)
    (h3 : chTypesMapping (takeBeforeParen (strTrim l)) = none) :
    whatPyType l false
      = .error (.chClientError (unrecognizedMsg (strTrim l)))
    ∧ whatPyType (lc "Bogus42") false
      = .error (.chClientError (unrecognizedMsg (lc "Bogus42"))) := by
  constructor
  · rw [whatPyType]
    simp only [whatPyTypeF, h1, h2, h3, Bool.or_self, Bool.or_false,
      if_neg Bool.false_ne_true]
  · rfl

theorem C7_unknown_family_witness :
    whatPyType (lc "NotAType(Int8)") false
      = .error (.chClientError (unrecognizedMsg (strTrim (lc "NotAType(Int8)"))))
    ∧ whatPyType (lc "Bogus42") false
      = .error (.chClientError (unrecognizedMsg (lc "Bogus42"))) :=
  C7_unknown_family (lc "NotAType(Int8)") (by decide) (by decide) (by decide)
